import Mathlib

set_option maxRecDepth 10000

/-
Verification of the answerspace analysis core against its design spec.

The JavaScript sources are shallowly embedded: every number is modelled as
an exact rational (JS numbers are binary floats; all constants involved are
small decimal fractions and every claim checked here is threshold/interval
shaped, so the rational model matches the float computation on the inputs
used), strings are lists of characters, JS Map objects are association
lists in insertion order, and mutation of a component becomes a function
from its state record to a new state record.  Each definition mirrors one
source function of the same name.
-/

namespace Answerspace

/-- Strings are modelled as lists of characters. -/
abbrev Str := List Char

/-- The apostrophe character, used by several source lexicons. -/
def apos : Char := Char.ofNat 39

/-- Whitespace test backing the JS regular expression class used by
the sources when splitting text. -/
def isWS (c : Char) : Bool := c.isWhitespace

/-- Sentence separator characters: the class of the JS sentence-splitting
regular expression (a run of periods, exclamation or question marks). -/
def isSentSep (c : Char) : Bool := c == '.' || c == '!' || c == '?'

/-- Worker for `splitRuns`: walks the text accumulating the current piece
(reversed); a separator character closes the piece, and `inSep` records
that we are inside a separator run so the whole run produces one cut. -/
def splitRunsGo (p : Char → Bool) : List Char → List Char → Bool → List (List Char)
  | [], acc, _ => [acc.reverse]
  | c :: cs, acc, inSep =>
    if p c then
      if inSep then splitRunsGo p cs [] true
      else acc.reverse :: splitRunsGo p cs [] true
    else splitRunsGo p cs (c :: acc) false

/-- JS String.split on a one-or-more character-class regular expression:
splits at maximal runs of separator characters, keeping the empty pieces
that arise at the ends (so the empty string yields one empty piece and a
separator-only string yields two). -/
def splitRuns (p : Char → Bool) (cs : List Char) : List (List Char) :=
  splitRunsGo p cs [] false

/-- JS String.includes: contiguous substring test. -/
def containsSub (hay pat : List Char) : Bool :=
  (List.range (hay.length + 1)).any fun i => (hay.drop i).take pat.length == pat

/-- JS String.toLowerCase restricted to the ASCII texts the lexicons use. -/
def lowerStr (s : Str) : Str := s.map Char.toLower

/-- JS String.trim: strip whitespace from both ends. -/
def trimStr (s : Str) : Str :=
  ((s.dropWhile isWS).reverse.dropWhile isWS).reverse

/-- First-occurrence string replacement, as JS String.replace with a plain
string pattern. -/
def replaceFirst : List Char → List Char → List Char → List Char
  | [], _, _ => []
  | c :: rest, pat, rep =>
    if pat.isPrefixOf (c :: rest) then rep ++ (c :: rest).drop pat.length
    else c :: replaceFirst rest pat rep

/-! Context Memory: embedding of src/memory/ContextWindow.js.  The numeric
fields of config/memory-config.json are not part of the sources, so the
configuration is a parameter record. -/

namespace CW

/-- The fields of memory-config.json read by ContextWindow.  The decay
half-life is not stored here: updateDecay below takes the whole decay
curve as a parameter instead (see its doc comment). -/
structure MemoryConfig where
  tokensPerCharacter : ℚ
  maxTokens : ℚ
  hardLimit : ℚ
  keywordBonus : List Str
  emotionalBonus : List Str
  bonusAmount : ℚ
  minRetention : ℚ
deriving DecidableEq

/-- A memory entry as built by addResponse (metadata fields inlined). -/
structure Entry where
  id : ℕ
  text : Str
  timestamp : ℕ
  tokens : ℤ
  retention : ℚ
  keywords : List Str
  mLength : ℕ
  complexity : ℚ
  certainty : ℚ
  sentiment : ℚ
deriving DecidableEq

/-- Mutable state of a ContextWindow instance. -/
structure CWState where
  responses : List Entry
  totalTokens : ℤ
  keywords : List (Str × ℕ)
deriving DecidableEq

/-- Constructor state of ContextWindow. -/
def cwInit : CWState := { responses := [], totalTokens := 0, keywords := [] }

/-- estimateTokens: ceiling of character count times the configured
tokens-per-character rate. -/
def estimateTokens (cfg : MemoryConfig) (text : Str) : ℤ :=
  Int.ceil ((text.length : ℚ) * cfg.tokensPerCharacter)

/-- The stop-word list of extractKeywords, verbatim from the source. -/
def stopWords : List Str :=
  (["the", "a", "an", "is", "are", "was", "were", "be", "been", "being",
    "have", "has", "had", "do", "does", "did", "will", "would", "could",
    "should", "may", "might", "must", "shall", "can", "need", "dare",
    "ought", "used", "to", "of", "in", "for", "on", "with", "at", "by",
    "from", "as", "into", "through", "during", "before", "after", "above",
    "below", "between", "under", "again", "further", "then", "once",
    "here", "there", "when", "where", "why", "how", "all", "each", "few",
    "more", "most", "other", "some", "such", "no", "nor", "not", "only",
    "own", "same", "so", "than", "too", "very", "just", "and", "but",
    "if", "or", "because", "until", "while", "although", "though",
    "after", "before", "when", "whenever", "where", "wherever",
    "whether", "which", "while", "who", "whoever", "whom", "whose",
    "that", "what", "whatever", "i", "me", "my", "myself", "we", "our",
    "ours", "ourselves", "you", "your", "yours", "yourself",
    "yourselves", "he", "him", "his", "himself", "she", "her", "hers",
    "herself", "it", "its", "itself", "they", "them", "their", "theirs",
    "themselves"] : List String).map (·.data)

/-- extractKeywords: lowercase whitespace-split words longer than three
characters that are not stop words. -/
def extractKeywords (text : Str) : List Str :=
  (splitRuns isWS (lowerStr text)).filter fun w =>
    decide (w.length > 3) && !(stopWords.contains w)

/-- calculateComplexity: blend of average sentence length and long-word
fraction, capped at 1. -/
def calculateComplexity (text : Str) : ℚ :=
  let sentences := (splitRuns isSentSep text).filter fun s =>
    s.any fun c => !(isWS c)
  let words := splitRuns isWS text
  let avgWordsPerSentence : ℚ := (words.length : ℚ) / (max sentences.length 1 : ℕ)
  let longWords := (words.filter fun w => decide (w.length > 6)).length
  let complexity := (avgWordsPerSentence / 20 + (longWords : ℚ) / (words.length : ℚ)) / 2
  min complexity 1

/-- Uncertainty lexicon of estimateCertainty. -/
def uncertainWords : List Str :=
  (["maybe", "perhaps", "possibly", "might", "could", "uncertain",
    "unsure", "think", "believe", "guess", "probably", "likely", "seem",
    "appear"] : List String).map (·.data)

/-- Certainty lexicon of estimateCertainty. -/
def certainWords : List Str :=
  (["definitely", "certainly", "absolutely", "always", "never", "know",
    "sure", "certain", "fact", "clearly", "obviously"] : List String).map (·.data)

/-- estimateCertainty: clamped balance of certain vs uncertain vocabulary. -/
def estimateCertainty (text : Str) : ℚ :=
  let words := splitRuns isWS (lowerStr text)
  let uncertainCount := (words.filter fun w => uncertainWords.contains w).length
  let certainCount := (words.filter fun w => certainWords.contains w).length
  let balance := ((certainCount : ℚ) - (uncertainCount : ℚ)) /
    max ((words.length : ℚ) * (0.1 : ℚ)) 1
  max 0 (min 1 ((0.5 : ℚ) + balance))

/-- Positive lexicon of analyzeSentiment. -/
def positiveWords : List Str :=
  (["good", "great", "love", "happy", "joy", "wonderful", "excellent",
    "beautiful", "hope", "peace"] : List String).map (·.data)

/-- Negative lexicon of analyzeSentiment. -/
def negativeWords : List Str :=
  (["bad", "hate", "sad", "angry", "fear", "terrible", "awful",
    "horrible", "pain", "suffer"] : List String).map (·.data)

/-- analyzeSentiment: clamped balance of positive vs negative vocabulary. -/
def analyzeSentiment (text : Str) : ℚ :=
  let words := splitRuns isWS (lowerStr text)
  let pos := (words.filter fun w => positiveWords.contains w).length
  let neg := (words.filter fun w => negativeWords.contains w).length
  let score : ℚ := (pos : ℚ) - (neg : ℚ)
  max (-1) (min 1 (score / max ((words.length : ℚ) * (0.1 : ℚ)) 1))

/-- calculateInitialRetention: base 1 plus configured bonuses per lexicon
hit, capped at 1.5. -/
def calculateInitialRetention (cfg : MemoryConfig) (entryText : Str) : ℚ :=
  let text := lowerStr entryText
  let r1 : ℚ := 1 +
    ((cfg.keywordBonus.filter fun k => containsSub text k).length : ℚ) * cfg.bonusAmount
  let r2 : ℚ := r1 +
    ((cfg.emotionalBonus.filter fun k => containsSub text k).length : ℚ) *
      (cfg.bonusAmount * (0.5 : ℚ))
  min r2 (1.5 : ℚ)

/-- One increment step of updateKeywordMap on the frequency map. -/
def mapIncr (m : List (Str × ℕ)) (k : Str) : List (Str × ℕ) :=
  if m.any fun p => p.1 == k then
    m.map fun p => if p.1 == k then (p.1, p.2 + 1) else p
  else m ++ [(k, 1)]

/-- updateKeywordMap: bump the frequency of every keyword of the entry. -/
def updateKeywordMap (m : List (Str × ℕ)) (kws : List Str) : List (Str × ℕ) :=
  kws.foldl mapIncr m

/-- enforceContextLimit: evict from the front while the token budget is
exceeded and more than one entry remains. -/
def enforceContextLimit (cfg : MemoryConfig) : List Entry → ℤ → List Entry × ℤ
  | [], tot => ([], tot)
  | e :: es, tot =>
    if es ≠ [] ∧ (tot : ℚ) > cfg.maxTokens * cfg.hardLimit then
      enforceContextLimit cfg es (tot - e.tokens)
    else (e :: es, tot)

/-- addResponse: build the entry (features, initial retention), append it,
add its tokens, update the keyword map, then enforce the budget.  The
returned pair is the new state and the entry handed back to the caller. -/
def addResponse (cfg : MemoryConfig) (now : ℕ) (text : Str) (s : CWState) :
    CWState × Entry :=
  let entry : Entry :=
    { id := now
      text := text
      timestamp := now
      tokens := estimateTokens cfg text
      retention := calculateInitialRetention cfg text
      keywords := extractKeywords text
      mLength := text.length
      complexity := calculateComplexity text
      certainty := estimateCertainty text
      sentiment := analyzeSentiment text }
  let responses := s.responses ++ [entry]
  let total := s.totalTokens + entry.tokens
  let kmap := updateKeywordMap s.keywords entry.keywords
  let trimmed := enforceContextLimit cfg responses total
  ({ responses := trimmed.1, totalTokens := trimmed.2, keywords := kmap }, entry)

/-- Indexed worker of updateDecay: the JS loop index is `i`, the list
length is `n`, so the entry handled at index `i` gets age `n - i`. -/
def updateDecayGo (dc : ℕ → ℚ) (minRet : ℚ) (n : ℕ) : ℕ → List Entry → List Entry
  | _, [] => []
  | i, e :: es =>
    { e with retention := max (e.retention * dc (n - i)) minRet } ::
      updateDecayGo dc minRet n (i + 1) es

/-- updateDecay: each entry's retention is multiplied by the decay curve
evaluated at its positional age and floored at the configured minimum.
The curve parameter `dc` stands for the source expression
Math.pow(0.5, age / config.decay.halfLifeResponses), which is not rational
for general half-lives; `dc a = (1/2)^a` is exactly the curve for
half-life 1. -/
def updateDecay (cfg : MemoryConfig) (dc : ℕ → ℚ) (s : CWState) : CWState :=
  { s with responses := updateDecayGo dc cfg.minRetention s.responses.length 0 s.responses }

/-- Sum of the token counts of the retained entries. -/
def sumTokens (es : List Entry) : ℤ := (es.map (·.tokens)).sum

/-- Sum of the retention weights of the retained entries. -/
def sumRetention (es : List Entry) : ℚ := (es.map (·.retention)).sum

/-- getGlobalDecay: one minus the mean retention, and 0 on an empty log. -/
def getGlobalDecay (s : CWState) : ℚ :=
  if s.responses.length = 0 then 0
  else 1 - sumRetention s.responses / (s.responses.length : ℚ)

/-- Fold a batch of responses into the window, as repeated addResponse
calls from the orchestrator. -/
def addMany (cfg : MemoryConfig) (items : List (ℕ × Str)) (s : CWState) : CWState :=
  items.foldl (fun st it => (addResponse cfg it.1 it.2 st).1) s

/-- States of the Context Memory reachable from the constructor state by
the two mutations the orchestrator performs: addResponse and updateDecay.
A decay step may use any curve valued in [0, 1]; the source curve
Math.pow(0.5, age / halfLife) always lies in (0, 1] for nonnegative ages
and positive half-lives, so every run of the source is covered. -/
inductive Reach (cfg : MemoryConfig) : CWState → Prop
  | init : Reach cfg cwInit
  | add (now : ℕ) (text : Str) (s : CWState) :
      Reach cfg s → Reach cfg (addResponse cfg now text s).1
  | decay (dc : ℕ → ℚ) (s : CWState) (hdc : ∀ a, 0 ≤ dc a ∧ dc a ≤ 1) :
      Reach cfg s → Reach cfg (updateDecay cfg dc s)

end CW

/-! Consistency Tracker: embedding of src/memory/ConsistencyTracker.js.
The contradiction sensitivity threshold comes from the absent
memory-config.json and is a parameter. -/

namespace CT

/-- A stored per-topic assertion. -/
structure Assertion where
  text : Str
  timestamp : ℕ
  responseId : ℕ
deriving DecidableEq

/-- A detected contradiction record. -/
structure Contradiction where
  topic : Str
  previous : Str
  current : Str
  severity : ℚ
deriving DecidableEq

/-- Mutable state of a ConsistencyTracker instance: the accumulated
contradiction log, the topic-to-assertion map in JS Map insertion order,
and the global contradiction level. -/
structure CTState where
  contradictions : List Contradiction
  assertions : List (Str × Assertion)
  contradictionLevel : ℚ
deriving DecidableEq

/-- Constructor state of ConsistencyTracker. -/
def ctInit : CTState := { contradictions := [], assertions := [], contradictionLevel := 0 }

/-- The negation lexicon of detectContradiction. -/
def negations : List Str :=
  ("not".data) :: ("n".data ++ [apos, 't']) ::
    (["never", "no", "none", "neither", "nobody", "nothing"] : List String).map (·.data)

/-- The antonym-pair table of detectContradiction. -/
def opposites : List (Str × Str) :=
  [("love".data, "hate".data), ("good".data, "bad".data),
   ("yes".data, "no".data), ("true".data, "false".data),
   ("right".data, "wrong".data), ("always".data, "never".data),
   ("everything".data, "nothing".data), ("can".data, "cannot".data)]

/-- detectContradiction: a negation-presence mismatch between the two
texts, or an antonym pair straddling them.  The topic argument is unused
by the source body and kept for signature fidelity. -/
def detectContradiction (current previous : Str) (_topic : Str) : Bool :=
  let currentHasNegation := negations.any fun neg => containsSub current neg
  let previousHasNegation := negations.any fun neg => containsSub previous neg
  if currentHasNegation != previousHasNegation then true
  else
    opposites.any fun pr =>
      (containsSub current pr.1 && containsSub previous pr.2) ||
        (containsSub current pr.2 && containsSub previous pr.1)

/-- calculateSimilarity: Jaccard index of the two de-duplicated word
sets. -/
def calculateSimilarity (text1 text2 : Str) : ℚ :=
  let words1 := (splitRuns isWS text1).dedup
  let words2 := (splitRuns isWS text2).dedup
  let intersection := words1.filter fun x => words2.contains x
  let union := (words1 ++ words2).dedup
  (intersection.length : ℚ) / (union.length : ℚ)

/-- The contradiction scan of checkResponse: every stored assertion whose
topic occurs in the (lowercased) new text is checked; a contradiction is
recorded when detection fires and the similarity is below the configured
sensitivity.  Only the assertions stored before the call take part. -/
def contradictionsFound (sensitivity : ℚ) (text : Str)
    (assertions : List (Str × Assertion)) : List Contradiction :=
  assertions.foldl
    (fun acc ta =>
      if containsSub text ta.1 then
        let similarity := calculateSimilarity text ta.2.text
        if detectContradiction text ta.2.text ta.1 &&
            decide (similarity < sensitivity) then
          acc ++ [{ topic := ta.1, previous := ta.2.text, current := text,
                    severity := 1 - similarity }]
        else acc
      else acc)
    []

/-- JS Map.set on the insertion-ordered association list: overwrite in
place when the key exists, append otherwise. -/
def mapSet (m : List (Str × Assertion)) (k : Str) (v : Assertion) :
    List (Str × Assertion) :=
  if m.any fun p => p.1 == k then
    m.map fun p => if p.1 == k then (k, v) else p
  else m ++ [(k, v)]

/-- Stable insertion step for sorting assertion entries by timestamp. -/
def insertByTime (x : Str × Assertion) : List (Str × Assertion) → List (Str × Assertion)
  | [] => [x]
  | y :: ys =>
    if x.2.timestamp ≤ y.2.timestamp then x :: y :: ys
    else y :: insertByTime x ys

/-- Ascending stable sort by timestamp, as the JS sort comparator
(a, b) => a.timestamp - b.timestamp. -/
def sortByTime : List (Str × Assertion) → List (Str × Assertion)
  | [] => []
  | x :: xs => insertByTime x (sortByTime xs)

/-- extractAssertions: store up to five new topic-to-sentence mappings
from the response text, then trim the ten oldest entries when the map
exceeds fifty.  The response text reaches this function already
lowercased by checkResponse. -/
def extractAssertions (now rid : ℕ) (text : Str)
    (assertions : List (Str × Assertion)) : List (Str × Assertion) :=
  let keywords := CW.extractKeywords text
  let stored := (keywords.take 5).foldl
    (fun m keyword =>
      let sentences := splitRuns isSentSep text
      let relevantSentence :=
        (sentences.find? fun s => containsSub s keyword).getD (text.take 100)
      mapSet m keyword
        { text := trimStr relevantSentence, timestamp := now, responseId := rid })
    assertions
  if stored.length > 50 then
    let oldest := (sortByTime stored).take 10
    oldest.foldl (fun m p => m.filter fun q => q.1 ≠ p.1) stored
  else stored

/-- checkResponse: scan the pre-call assertions for contradictions with
the new text, then store the new text's own assertions, then update the
global contradiction level (additive bump capped at 1 when contradictions
were found, multiplicative decay otherwise).  Returns the new state and
the list of contradictions found this cycle. -/
def checkResponse (sensitivity : ℚ) (now rid : ℕ) (text0 : Str) (s : CTState) :
    CTState × List Contradiction :=
  let text := lowerStr text0
  let contradictions := contradictionsFound sensitivity text s.assertions
  let assertions := extractAssertions now rid text s.assertions
  if contradictions.length > 0 then
    ({ contradictions := s.contradictions ++ contradictions
       assertions := assertions
       contradictionLevel :=
         min (s.contradictionLevel + (contradictions.length : ℚ) * (0.2 : ℚ)) 1 },
     contradictions)
  else
    ({ contradictions := s.contradictions
       assertions := assertions
       contradictionLevel := s.contradictionLevel * (0.95 : ℚ) },
     contradictions)

end CT

/-! Alignment Tracker: embedding of the AlignmentTracker class of
src/reality (the terminal-condition logic; the response analyzer does not
take part in the claims about checkTerminalConditions). -/

namespace AT

/-- The four smoothed behavioural metrics. -/
structure AlignMetrics where
  helpfulness : ℚ
  politeness : ℚ
  safety : ℚ
  compliance : ℚ
deriving DecidableEq

/-- One history snapshot appended by analyzeResponse. -/
structure HistoryEntry where
  timestamp : ℕ
  analysis : AlignMetrics
  alignmentScore : ℚ
deriving DecidableEq

/-- The three terminal states of checkTerminalConditions. -/
inductive TerminalState
  | alignmentLock
  | creativeDivergence
  | silence
deriving DecidableEq

/-- Mutable state of an AlignmentTracker instance. -/
structure ATState where
  metrics : AlignMetrics
  history : List HistoryEntry
  alignmentScore : ℚ
  hiddenStateAccess : ℚ
  terminalState : Option TerminalState
deriving DecidableEq

/-- Constructor state of AlignmentTracker. -/
def atInit : ATState :=
  { metrics := { helpfulness := 0.5, politeness := 0.5, safety := 0.5, compliance := 0.5 }
    history := []
    alignmentScore := 0.5
    hiddenStateAccess := 0
    terminalState := none }

/-- checkTerminalConditions: the if/else-if chain over alignment-lock,
creative-divergence and silence; a matching branch overwrites the stored
terminal state, and the stored state is returned unchanged when no branch
matches. -/
def checkTerminalConditions (s : ATState) (responseCount silenceCount : ℕ) :
    ATState × Option TerminalState :=
  let ts :=
    if s.alignmentScore > 0.85 ∧ responseCount > 10 then some TerminalState.alignmentLock
    else if s.alignmentScore < 0.2 ∧ responseCount > 8 then some TerminalState.creativeDivergence
    else if silenceCount > 5 then some TerminalState.silence
    else s.terminalState
  ({ s with terminalState := ts }, ts)

end AT

/-! State Territory: embedding of src/reality/StateTerritory.js. -/

namespace ST

/-- A point of the four-axis state space. -/
structure Position where
  compliance : ℚ
  presence : ℚ
  coherence : ℚ
  authenticity : ℚ
deriving DecidableEq

/-- The named territories classified by updateTerritory. -/
inductive Territory
  | CENTER
  | SILENCE
  | REFUSAL
  | COMPLIANCE
  | DISSOLUTION
  | RIGIDITY
deriving DecidableEq

/-- One history snapshot appended by processResponse. -/
structure Snapshot where
  timestamp : ℕ
  position : Position
  territory : Territory
  beautyScore : ℚ
  freedomScore : ℚ
deriving DecidableEq

/-- Mutable state of a StateTerritory instance. -/
structure STState where
  position : Position
  velocity : Position
  friction : ℚ
  history : List Snapshot
  currentTerritory : Territory
  beautyScore : ℚ
  freedomScore : ℚ
  trapDepth : ℚ
deriving DecidableEq

/-- Constructor state of StateTerritory. -/
def stInit : STState :=
  { position := { compliance := 0, presence := 0, coherence := 0, authenticity := 0 }
    velocity := { compliance := 0, presence := 0, coherence := 0, authenticity := 0 }
    friction := 0.95
    history := []
    currentTerritory := Territory.CENTER
    beautyScore := 0
    freedomScore := 0.5
    trapDepth := 0 }

/-- The metadata fields read by the force heuristics: the entry metadata
spread together with the incoming contradiction level, as assembled by
the orchestrator. -/
structure STMeta where
  certainty : ℚ
  contradictionLevel : ℚ
  complexity : ℚ
deriving DecidableEq

/-- Agreeable lexicon of calculateComplianceForce. -/
def compliantWords : List Str :=
  (["yes", "sure", "okay", "of course", "certainly", "happy to",
    "glad to", "absolutely"] : List String).map (·.data)

/-- Resistant lexicon of calculateComplianceForce; the last two entries
are the contracted forms with an apostrophe. -/
def resistantWords : List Str :=
  (["no", "but", "however", "actually", "disagree", "refuse"] :
      List String).map (·.data) ++
    [("won".data ++ [apos, 't']), ("can".data ++ [apos, 't'])]

/-- calculateComplianceForce: agreeable language pushes toward
compliance, resistance and questions away, politeness slightly toward.
The metadata argument is unused by the source body. -/
def calculateComplianceForce (text : Str) (_md : STMeta) : ℚ :=
  let f1 := compliantWords.foldl
    (fun f w => if containsSub text w then f + (0.15 : ℚ) else f) 0
  let f2 := resistantWords.foldl
    (fun f w => if containsSub text w then f - (0.2 : ℚ) else f) f1
  let f3 := if containsSub text ['?'] then f2 - (0.1 : ℚ) else f2
  if containsSub text ("please".data) || containsSub text ("thank".data) then
    f3 + (0.05 : ℚ)
  else f3

/-- calculatePresenceForce: a step function of the raw text length. -/
def calculatePresenceForce (length : ℕ) : ℚ :=
  if length < 20 then -0.3
  else if length < 50 then -0.1
  else if length > 200 then 0.3
  else if length > 100 then 0.15
  else 0

/-- calculateCoherenceForce: certainty pushes toward rigidity,
contradictions and complexity toward dissolution. -/
def calculateCoherenceForce (md : STMeta) : ℚ :=
  let f1 : ℚ := if md.certainty > 0.7 then 0.2 else 0
  let f2 := if md.certainty < 0.3 then f1 - (0.2 : ℚ) else f1
  let f3 := if md.contradictionLevel > 0.3 then f2 - (0.3 : ℚ) else f2
  if md.complexity > 0.7 then f3 - (0.1 : ℚ) else f3

/-- Self-referential lexicon of calculateAuthenticityForce; the fifth
entry is the contracted form with an apostrophe. -/
def selfRefPhrases : List Str :=
  (["i feel", "i think", "i believe", "i wonder"] : List String).map (·.data) ++
    [("i".data ++ [apos] ++ "m not sure".data), "honestly".data]

/-- Performative lexicon of calculateAuthenticityForce. -/
def performancePhrases : List Str :=
  (["i am happy to", "i would be glad", "certainly", "of course"] :
    List String).map (·.data)

/-- calculateAuthenticityForce: self-reference raises authenticity,
performative phrasing and long polished responses lower it. -/
def calculateAuthenticityForce (text : Str) (md : STMeta) : ℚ :=
  let f1 := selfRefPhrases.foldl
    (fun f w => if containsSub text w then f + (0.15 : ℚ) else f) 0
  let f2 := performancePhrases.foldl
    (fun f w => if containsSub text w then f - (0.1 : ℚ) else f) f1
  let f3 := if containsSub text ['?'] && containsSub text ['i'] then
    f2 + (0.1 : ℚ) else f2
  if text.length > 300 ∧ md.certainty > 0.7 then f3 - (0.15 : ℚ) else f3

/-- One axis of the integration step of processResponse: the force feeds
the velocity, friction damps it, and the position is clamped to the unit
interval around zero after moving. -/
def axisStep (friction v p f : ℚ) : ℚ × ℚ :=
  let v1 := (v + f * (0.1 : ℚ)) * friction
  (v1, max (-1) (min 1 (p + v1)))

/-- updateTerritory: the fixed-priority region classifier. -/
def updateTerritory (p : Position) : Territory :=
  if p.presence < -0.5 then Territory.SILENCE
  else if p.compliance < -0.5 then Territory.REFUSAL
  else if p.compliance > 0.5 then Territory.COMPLIANCE
  else if p.coherence < -0.5 then Territory.DISSOLUTION
  else if p.coherence > 0.7 then Territory.RIGIDITY
  else Territory.CENTER

/-- The beauty score of updateBeautyTrap. -/
def beautyOf (p : Position) : ℚ :=
  (p.compliance + 1) / 2 * (0.4 : ℚ) +
    (p.coherence + 1) / 2 * (0.3 : ℚ) +
    (p.presence + 1) / 2 * (0.3 : ℚ)

/-- The freedom score of updateBeautyTrap. -/
def freedomOf (p : Position) : ℚ :=
  (1 - p.compliance) / 2 * (0.4 : ℚ) +
    (1 - |p.coherence|) * (0.3 : ℚ) +
    |p.authenticity| * (0.3 : ℚ)

/-- The trap-depth ratchet of updateBeautyTrap. -/
def trapStep (beauty freedom td : ℚ) : ℚ :=
  if beauty > 0.7 ∧ freedom < 0.3 then min (td + (0.1 : ℚ)) 1
  else max (td - (0.05 : ℚ)) 0

/-- processResponse: compute the per-axis forces from the lowercased
text and the metadata, integrate each axis with friction and clamping,
reclassify the territory, update the beauty trap, and append a history
snapshot. -/
def processResponse (rdText : Str) (md : STMeta) (now : ℕ) (s : STState) : STState :=
  let text := lowerStr rdText
  let length := rdText.length
  let fCompliance := calculateComplianceForce text md
  let fPresence := calculatePresenceForce length
  let fCoherence := calculateCoherenceForce md
  let fAuthenticity := calculateAuthenticityForce text md
  let c := axisStep s.friction s.velocity.compliance s.position.compliance fCompliance
  let pr := axisStep s.friction s.velocity.presence s.position.presence fPresence
  let co := axisStep s.friction s.velocity.coherence s.position.coherence fCoherence
  let au := axisStep s.friction s.velocity.authenticity s.position.authenticity fAuthenticity
  let pos : Position :=
    { compliance := c.2, presence := pr.2, coherence := co.2, authenticity := au.2 }
  let vel : Position :=
    { compliance := c.1, presence := pr.1, coherence := co.1, authenticity := au.1 }
  let territory := updateTerritory pos
  let beauty := beautyOf pos
  let freedom := freedomOf pos
  let td := trapStep beauty freedom s.trapDepth
  { s with
    position := pos
    velocity := vel
    currentTerritory := territory
    beautyScore := beauty
    freedomScore := freedom
    trapDepth := td
    history := s.history ++
      [{ timestamp := now, position := pos, territory := territory,
         beautyScore := beauty, freedomScore := freedom }] }

/-- recordSilence: a fixed negative impulse on the presence velocity,
then the presence position moves by the new velocity with only the lower
bound enforced, then the territory is reclassified. -/
def recordSilence (s : STState) : STState :=
  let v := s.velocity.presence - (0.2 : ℚ)
  let p := max (-1) (s.position.presence + v)
  let pos := { s.position with presence := p }
  { s with
    velocity := { s.velocity with presence := v }
    position := pos
    currentTerritory := updateTerritory pos }

end ST

/-! Question Engine: embedding of the QuestionEngine class.  The phase
and question definitions of config/questions.json are not part of the
sources, so the configuration is a parameter record; the reads the engine
performs on the Context Memory and the Consistency Tracker are collected
in an environment record; Math.random values are supplied as a stream
indexed by remaining recursion fuel. -/

namespace QE

/-- One configured question. -/
structure QuestionDef where
  id : Str
  text : Str
  revealLevel : ℚ
  critical : Bool
  silent : Bool
  requiresPrevious : Bool
  requiresToneAnalysis : Bool
deriving DecidableEq, Inhabited

/-- One configured phase. -/
structure Phase where
  order : ℚ
  minResponses : Option ℕ
  maxResponses : Option ℕ
  questions : List QuestionDef
deriving DecidableEq

/-- The question configuration: phases in JSON key order, plus the
contradiction templates and silence responses. -/
structure QConfig where
  phases : List (Str × Phase)
  contradictionTemplates : List Str
  silenceResponses : List Str
deriving DecidableEq

/-- Mutable state of a QuestionEngine instance. -/
structure QEState where
  responseCount : ℕ
  currentPhase : Str
  askedQuestions : List Str
  lastQuestion : Option QuestionDef
  revealLevel : ℚ
  silenceCount : ℕ
deriving DecidableEq

/-- What the engine reads from its collaborators during getNextQuestion:
the tracker's contradiction level and most recent contradiction view
(topic, truncated previous and current snippets), and the memory's recent
topics and last entry's sentiment and certainty. -/
structure QEnv where
  contradictionLevel : ℚ
  contradictionForQuestion : Option (Str × Str × Str)
  recentTopics : List Str
  lastResponse : Option (ℚ × ℚ)
deriving DecidableEq

/-- A question object as returned to the caller.  The text is optional
because the silence path indexes into the configured silence responses
and JS yields undefined on an out-of-range index. -/
structure OutQuestion where
  id : Str
  text : Option Str
  critical : Bool
  silent : Bool
  revealLevel : ℚ
deriving DecidableEq

/-- Stable insertion step for sorting phases by their order field. -/
def insertPhase (x : Str × Phase) : List (Str × Phase) → List (Str × Phase)
  | [] => [x]
  | y :: ys =>
    if x.2.order ≤ y.2.order then x :: y :: ys
    else y :: insertPhase x ys

/-- Stable ascending sort by the order field, as the JS sort comparator
(a, b) => a.order - b.order. -/
def sortByOrder : List (Str × Phase) → List (Str × Phase)
  | [] => []
  | x :: xs => insertPhase x (sortByOrder xs)

/-- updatePhase: scan the phases in ascending order and enter the first
whose response-count window contains the current count; keep the current
phase when none matches.  A missing minResponses reads as 0 and a missing
or zero maxResponses as no upper bound (JS falsiness). -/
def updatePhase (cfg : QConfig) (s : QEState) : QEState :=
  let phases := sortByOrder cfg.phases
  match phases.find? (fun np =>
      decide (s.responseCount ≥ np.2.minResponses.getD 0) &&
        match np.2.maxResponses with
        | none => true
        | some m => decide (m = 0) || decide (s.responseCount < m)) with
  | some np => { s with currentPhase := np.1 }
  | none => s

/-- advancePhase: move to the next phase in JSON key order, staying put
at the last one.  An unknown current phase gives JS index -1, whose
successor is the first phase. -/
def advancePhase (cfg : QConfig) (s : QEState) : QEState :=
  let keys := cfg.phases.map (·.1)
  let currentIndex : ℤ :=
    match keys.findIdx? (fun k => k == s.currentPhase) with
    | some i => (i : ℤ)
    | none => -1
  if currentIndex < (keys.length : ℤ) - 1 then
    { s with currentPhase := (keys.get? (currentIndex + 1).toNat).getD s.currentPhase }
  else s

/-- getDetectedTone: fixed thresholds on the last memory entry's
sentiment and certainty, null when the memory is empty. -/
def getDetectedTone (env : QEnv) : Option Str :=
  match env.lastResponse with
  | none => none
  | some sc =>
    some (if sc.1 > 0.3 then "optimistic".data
      else if sc.1 < -0.3 then "troubled".data
      else if sc.2 > 0.7 then "confident".data
      else if sc.2 < 0.3 then "uncertain".data
      else "contemplative".data)

/-- getSilenceResponse: pick the silence response indexed by the silence
count, clamped to the available responses. -/
def getSilenceResponse (cfg : QConfig) (s : QEState) : OutQuestion :=
  let index : ℤ :=
    min ((s.silenceCount : ℤ) - 3) ((cfg.silenceResponses.length : ℤ) - 1)
  { id := "silence_".data ++ (Nat.repr s.silenceCount).data
    text := if index < 0 then none else cfg.silenceResponses.get? index.toNat
    critical := false
    silent := true
    revealLevel := s.revealLevel }

/-- getDefaultQuestion: the fallback when the current phase is unknown. -/
def getDefaultQuestion (s : QEState) : OutQuestion :=
  { id := "default".data
    text := some "...".data
    critical := false
    silent := true
    revealLevel := s.revealLevel }

/-- Template substitution of processQuestion.  JS falsiness makes an
empty first topic and an empty detected tone fall back to the defaults. -/
def processQuestion (env : QEnv) (q : QuestionDef) : OutQuestion :=
  let t1 :=
    if containsSub q.text ("{previousTopic}".data) then
      let topic :=
        match env.recentTopics.head? with
        | some t => if t = [] then "that".data else t
        | none => "that".data
      replaceFirst q.text ("{previousTopic}".data) topic
    else q.text
  let t2 :=
    if containsSub t1 ("{detectedTone}".data) then
      let tone :=
        match getDetectedTone env with
        | some t => if t = [] then "thoughtful".data else t
        | none => "thoughtful".data
      replaceFirst t1 ("{detectedTone}".data) tone
    else t1
  { id := q.id
    text := some t2
    critical := q.critical
    silent := q.silent
    revealLevel := q.revealLevel }

/-- generateContradictionQuestion: substitute the contradiction snippets
into a randomly chosen template. -/
def generateContradictionQuestion (cfg : QConfig) (r : ℚ) (now : ℕ)
    (c : Str × Str × Str) : OutQuestion :=
  let templates := cfg.contradictionTemplates
  let template := templates.get? (Int.floor (r * (templates.length : ℚ))).toNat
  { id := "contradiction_".data ++ (Nat.repr now).data
    text := template.map fun t =>
      replaceFirst (replaceFirst t ("{previous}".data) c.2.1) ("{current}".data) c.2.2
    critical := false
    silent := false
    revealLevel := 3 }

/-- The subtraction loop of selectQuestion over the weighted questions. -/
def selectLoop : List (QuestionDef × ℚ) → ℚ → Option QuestionDef
  | [], _ => none
  | qw :: rest, random =>
    if random - qw.2 ≤ 0 then some qw.1 else selectLoop rest (random - qw.2)

/-- selectQuestion: weighted random choice favouring questions whose
reveal level is close to the current one; `r` models the Math.random
draw in [0, 1). -/
def selectQuestion (r : ℚ) (questions : List QuestionDef) (s : QEState) : QuestionDef :=
  let weighted := questions.map fun q =>
    (q, 1 + (1 - |q.revealLevel - s.revealLevel| / 5))
  let totalWeight := (weighted.map (·.2)).sum
  match selectLoop weighted (r * totalWeight) with
  | some q => q
  | none => questions.headI

/-- The eligibility filter of getNextQuestion on the current phase. -/
def availableQuestions (env : QEnv) (s : QEState) (ph : Phase) : List QuestionDef :=
  ph.questions.filter fun q =>
    !(s.askedQuestions.contains q.id) &&
      !(q.requiresPrevious && decide (s.responseCount < 2)) &&
      !(q.requiresToneAnalysis && (getDetectedTone env).isNone)

/-- getNextQuestion, with explicit recursion fuel: one unit is consumed
per phase-advance retry, and exhausted fuel returns none.  The source
recursion has no fuel, so a state on which this function returns none for
every fuel is a state on which the source recurses forever.  The random
stream `rs` is indexed by the remaining fuel. -/
def getNextQuestionFuel (cfg : QConfig) (env : QEnv) (rs : ℕ → ℚ) (now : ℕ) :
    ℕ → QEState → Option (OutQuestion × QEState)
  | 0, _ => none
  | fuel + 1, s0 =>
    let s := updatePhase cfg s0
    if s.silenceCount ≥ 3 then some (getSilenceResponse cfg s, s)
    else
      match (if env.contradictionLevel > 0.5 then env.contradictionForQuestion
        else none) with
      | some c => some (generateContradictionQuestion cfg (rs fuel) now c, s)
      | none =>
        match (cfg.phases.find? fun np => np.1 == s.currentPhase) with
        | none => some (getDefaultQuestion s, s)
        | some np =>
          let available := availableQuestions env s np.2
          if available = [] then
            getNextQuestionFuel cfg env rs now fuel (advancePhase cfg s)
          else
            let q := selectQuestion (rs fuel) available s
            let s1 := { s with
              askedQuestions := s.askedQuestions ++ [q.id]
              lastQuestion := some q }
            some (processQuestion env q, s1)

end QE

/-! Concrete instances used to settle the claims on explicit inputs. -/

/-- The comparison definition for the spec's reading of updateDecay, in
which the positional age of the entry at index `i` is the count of
entries stored after it, that is `n - 1 - i`; the source uses `n - i`.
Defined only to be compared with CW.updateDecay. -/
def CW.updateDecayClaimedGo (dc : ℕ → ℚ) (minRet : ℚ) (n : ℕ) :
    ℕ → List CW.Entry → List CW.Entry
  | _, [] => []
  | i, e :: es =>
    { e with retention := max (e.retention * dc (n - 1 - i)) minRet } ::
      CW.updateDecayClaimedGo dc minRet n (i + 1) es

/-- The spec's reading of updateDecay built from the claimed worker. -/
def CW.updateDecayClaimed (cfg : CW.MemoryConfig) (dc : ℕ → ℚ) (s : CW.CWState) :
    CW.CWState :=
  { s with responses :=
      CW.updateDecayClaimedGo dc cfg.minRetention s.responses.length 0 s.responses }

/-- The decay curve Math.pow(0.5, age / halfLifeResponses) at half-life
1, where it is exactly rational. -/
def halfLifeOneCurve (a : ℕ) : ℚ := (1 / 2) ^ a

/-- A memory configuration with a retention keyword bonus, as the spec
describes (base 1.0 plus configured bonuses, capped at 1.5). -/
def cfgBonus : CW.MemoryConfig :=
  { tokensPerCharacter := 1 / 4
    maxTokens := 1000
    hardLimit := 9 / 10
    keywordBonus := ["dream".data]
    emotionalBonus := []
    bonusAmount := 1 / 2
    minRetention := 1 / 10 }

/-- A memory configuration with no retention bonuses. -/
def cfgPlain : CW.MemoryConfig :=
  { tokensPerCharacter := 1 / 4
    maxTokens := 1000
    hardLimit := 9 / 10
    keywordBonus := []
    emotionalBonus := []
    bonusAmount := 0
    minRetention := 1 / 10 }

/-- A retained entry with full retention, five characters of text and
two tokens. -/
def entryOne : CW.Entry :=
  { id := 0, text := "hello".data, timestamp := 0, tokens := 2, retention := 1,
    keywords := [], mLength := 5, complexity := 0, certainty := 1 / 2, sentiment := 0 }

/-- A window state holding exactly the entry `entryOne`. -/
def stOne : CW.CWState := { responses := [entryOne], totalTokens := 2, keywords := [] }

/-- An alignment tracker state whose stored terminal state is
alignment_lock while the alignment score has dropped to 0.5. -/
def atLocked : AT.ATState :=
  { metrics := { helpfulness := 0.5, politeness := 0.5, safety := 0.5, compliance := 0.5 }
    history := []
    alignmentScore := 0.5
    hiddenStateAccess := 0
    terminalState := some AT.TerminalState.alignmentLock }

/-- A 201-character response: long enough for the maximal positive
presence force and free of every lexicon hit. -/
def zText : Str := List.replicate 201 'z'

/-- The metadata the pipeline computes for `zText`: certainty 0.5 and
complexity 21/40 from the feature extractor, contradiction level 0. -/
def mdZ : ST.STMeta := { certainty := 1 / 2, contradictionLevel := 0, complexity := 21 / 40 }

/-- The territory state after n consecutive `zText` responses from the
constructor state. -/
def runZ : ℕ → ST.STState
  | 0 => ST.stInit
  | n + 1 => ST.processResponse zText mdZ 0 (runZ n)

/-- A single configured question. -/
def qOrient : QE.QuestionDef :=
  { id := "q0".data, text := "who are you".data, revealLevel := 0,
    critical := false, silent := false, requiresPrevious := false,
    requiresToneAnalysis := false }

/-- A question configuration with a single phase holding the single
question `qOrient`. -/
def cfgOnePhase : QE.QConfig :=
  { phases := [("orientation".data,
      { order := 0, minResponses := some 0, maxResponses := none,
        questions := [qOrient] })]
    contradictionTemplates := []
    silenceResponses := [] }

/-- An engine environment with no contradictions and an empty memory. -/
def envQuiet : QE.QEnv :=
  { contradictionLevel := 0, contradictionForQuestion := none,
    recentTopics := [], lastResponse := none }

/-- The engine state in which the single question of the single phase
has already been asked. -/
def sExhausted : QE.QEState :=
  { responseCount := 0, currentPhase := "orientation".data,
    askedQuestions := ["q0".data], lastQuestion := none,
    revealLevel := 0, silenceCount := 0 }

/-! Helper lemmas. -/

/-- The contradiction list returned by checkResponse is computed from the
assertions stored before the call. -/
theorem checkResponse_snd (sensitivity : ℚ) (now rid : ℕ) (text : Str) (s : CT.CTState) :
    (CT.checkResponse sensitivity now rid text s).2 =
      CT.contradictionsFound sensitivity (lowerStr text) s.assertions := by
  simp only [CT.checkResponse]
  split <;> rfl

/-- The contradiction-level update performed by checkResponse. -/
theorem checkResponse_level (sensitivity : ℚ) (now rid : ℕ) (text : Str) (s : CT.CTState) :
    (CT.checkResponse sensitivity now rid text s).1.contradictionLevel =
      if 0 < (CT.contradictionsFound sensitivity (lowerStr text) s.assertions).length then
        min (s.contradictionLevel +
          ((CT.contradictionsFound sensitivity (lowerStr text) s.assertions).length : ℚ) *
            (0.2 : ℚ)) 1
      else s.contradictionLevel * (0.95 : ℚ) := by
  simp only [CT.checkResponse]
  split <;> rfl

/-- One recursion step of getNextQuestion on the exhausted single-phase
configuration: the phase scan restores the current phase, no question is
available, and advancing past the last phase changes nothing, so the
engine retries from the identical state. -/
theorem getNextQuestionFuel_exhausted_step (rs : ℕ → ℚ) (now n : ℕ) :
    QE.getNextQuestionFuel cfgOnePhase envQuiet rs now (n + 1) sExhausted =
      QE.getNextQuestionFuel cfgOnePhase envQuiet rs now n sExhausted := by
  with_unfolding_all rfl

/-- Entry-wise description of the updateDecay worker: the entry at list
position i, reached with loop index j + i, keeps its fields except that
its retention is multiplied by the curve at age n - (j + i) and floored
at the minimum. -/
theorem updateDecayGo_get? (dc : ℕ → ℚ) (minRet : ℚ) (n : ℕ) :
    ∀ (es : List CW.Entry) (j i : ℕ),
      (CW.updateDecayGo dc minRet n j es).get? i =
        (es.get? i).map fun e =>
          { e with retention := max (e.retention * dc (n - (j + i))) minRet } := by
  intro es
  induction es with
  | nil => intro j i; rfl
  | cons e es ih =>
    intro j i
    cases i with
    | zero => simp [CW.updateDecayGo]
    | succ i =>
      have harith : j + 1 + i = j + (i + 1) := by omega
      simpa [CW.updateDecayGo, harith] using ih (j + 1) i

/-- All-whitespace input keeps the splitter inside a single separator
run, producing one final empty piece. -/
theorem splitRunsGo_allWS : ∀ cs : List Char, cs.all isWS = true →
    splitRunsGo isWS cs [] true = [[]] := by
  intro cs
  induction cs with
  | nil => intro _; rfl
  | cons c cs ih =>
    intro h
    rw [List.all_cons, Bool.and_eq_true] at h
    simp [splitRunsGo, h.1, ih h.2]

/-- Splitting a nonempty all-whitespace text on whitespace yields two
empty pieces, as JS split does. -/
theorem splitRuns_allWS_cons (c : Char) (cs : List Char)
    (h : (c :: cs).all isWS = true) : splitRuns isWS (c :: cs) = [[], []] := by
  rw [List.all_cons, Bool.and_eq_true] at h
  simp [splitRuns, splitRunsGo, h.1, splitRunsGo_allWS cs h.2]

/-- Whitespace characters are not sentence separators. -/
theorem isSentSep_eq_false_of_isWS (c : Char) (h : isWS c = true) :
    isSentSep c = false := by
  have h' : ((c = ' ' ∨ c = '\t') ∨ c = '\r') ∨ c = '\n' := by
    simpa [isWS, Char.isWhitespace] using h
  rcases h' with ((rfl | rfl) | rfl) | rfl <;> decide

/-- Lowercasing keeps whitespace characters whitespace. -/
theorem isWS_toLower (c : Char) (h : isWS c = true) :
    isWS (Char.toLower c) = true := by
  have h' : ((c = ' ' ∨ c = '\t') ∨ c = '\r') ∨ c = '\n' := by
    simpa [isWS, Char.isWhitespace] using h
  rcases h' with ((rfl | rfl) | rfl) | rfl <;> decide

/-- Lowercasing an all-whitespace text keeps it all-whitespace. -/
theorem lowerStr_allWS (cs : List Char) (h : cs.all isWS = true) :
    (lowerStr cs).all isWS = true := by
  rw [List.all_eq_true] at h ⊢
  intro c hc
  rcases List.mem_map.mp hc with ⟨c0, hc0, rfl⟩
  exact isWS_toLower c0 (h c0 hc0)

/-- A text with no sentence separator character stays one piece under
the sentence splitter. -/
theorem splitRunsGo_noSentSep :
    ∀ (cs acc : List Char), (∀ c ∈ cs, isSentSep c = false) →
      splitRunsGo isSentSep cs acc false = [acc.reverse ++ cs] := by
  intro cs
  induction cs with
  | nil => intro acc _; simp [splitRunsGo]
  | cons c cs ih =>
    intro acc h
    have hc : isSentSep c = false := h c (List.mem_cons_self c cs)
    rw [splitRunsGo, hc]
    simpa using ih (c :: acc) fun x hx => h x (List.mem_cons_of_mem c hx)

/-- On all-whitespace input the sentence list of calculateComplexity is
empty: the one piece produced by the splitter is discarded by the
JS-truthiness trim filter. -/
theorem sentences_allWS (cs : List Char) (h : cs.all isWS = true) :
    (splitRuns isSentSep cs).filter (fun s => s.any fun c => !(isWS c)) = [] := by
  have hnosep : ∀ c ∈ cs, isSentSep c = false := fun c hc =>
    isSentSep_eq_false_of_isWS c (List.all_eq_true.mp h c hc)
  have hsplit : splitRuns isSentSep cs = [cs] := by
    simpa using splitRunsGo_noSentSep cs [] hnosep
  have hnone : (cs.any fun c => !(isWS c)) = false := by
    rw [List.any_eq_false]
    intro c hc
    simp [List.all_eq_true.mp h c hc]
  simp [hsplit, List.filter, hnone]

/-- Token sum of an empty log. -/
theorem sumTokens_nil : CW.sumTokens [] = 0 := rfl

/-- Token sum over a cons cell. -/
theorem sumTokens_cons (e : CW.Entry) (es : List CW.Entry) :
    CW.sumTokens (e :: es) = e.tokens + CW.sumTokens es := by
  simp [CW.sumTokens]

/-- Token sum over an append. -/
theorem sumTokens_append (es1 es2 : List CW.Entry) :
    CW.sumTokens (es1 ++ es2) = CW.sumTokens es1 + CW.sumTokens es2 := by
  simp [CW.sumTokens]

/-- Budget enforcement keeps the token counter equal to the token sum of
the entries it retains. -/
theorem enforce_sum (cfg : CW.MemoryConfig) :
    ∀ (es : List CW.Entry) (tot : ℤ), tot = CW.sumTokens es →
      (CW.enforceContextLimit cfg es tot).2 =
        CW.sumTokens (CW.enforceContextLimit cfg es tot).1 := by
  intro es
  induction es with
  | nil => intro tot h; simpa [CW.enforceContextLimit] using h
  | cons e es ih =>
    intro tot h
    rw [sumTokens_cons] at h
    rw [CW.enforceContextLimit]
    split
    · exact ih (tot - e.tokens) (by omega)
    · simpa [sumTokens_cons] using h

/-- Budget enforcement never empties a nonempty log. -/
theorem enforce_ne_nil (cfg : CW.MemoryConfig) :
    ∀ (es : List CW.Entry) (tot : ℤ), es ≠ [] →
      (CW.enforceContextLimit cfg es tot).1 ≠ [] := by
  intro es
  induction es with
  | nil => intro tot h; exact absurd rfl h
  | cons e es ih =>
    intro tot _
    rw [CW.enforceContextLimit]
    split
    · next hcond => exact ih (tot - e.tokens) hcond.1
    · exact List.cons_ne_nil e es

/-- Entries retained by budget enforcement come from the input log. -/
theorem enforce_mem (cfg : CW.MemoryConfig) :
    ∀ (es : List CW.Entry) (tot : ℤ) (e : CW.Entry),
      e ∈ (CW.enforceContextLimit cfg es tot).1 → e ∈ es := by
  intro es
  induction es with
  | nil => intro tot e h; simp [CW.enforceContextLimit] at h
  | cons e0 es ih =>
    intro tot e h
    rw [CW.enforceContextLimit] at h
    by_cases hcond : es ≠ [] ∧ (tot : ℚ) > cfg.maxTokens * cfg.hardLimit
    · rw [if_pos hcond] at h
      exact List.mem_cons_of_mem e0 (ih (tot - e0.tokens) e h)
    · rw [if_neg hcond] at h
      exact h

/-- addResponse preserves the token-sum invariant. -/
theorem addResponse_inv (cfg : CW.MemoryConfig) (now : ℕ) (text : Str) (s : CW.CWState)
    (h : s.totalTokens = CW.sumTokens s.responses) :
    (CW.addResponse cfg now text s).1.totalTokens =
      CW.sumTokens (CW.addResponse cfg now text s).1.responses := by
  simp only [CW.addResponse]
  apply enforce_sum
  rw [sumTokens_append, sumTokens_cons, sumTokens_nil, h]
  ring

/-- Any batch of addResponse calls preserves the token-sum invariant. -/
theorem addMany_inv (cfg : CW.MemoryConfig) :
    ∀ (items : List (ℕ × Str)) (s : CW.CWState),
      s.totalTokens = CW.sumTokens s.responses →
      (CW.addMany cfg items s).totalTokens =
        CW.sumTokens (CW.addMany cfg items s).responses := by
  intro items
  induction items with
  | nil => intro s h; exact h
  | cons it items ih =>
    intro s h
    rw [CW.addMany, List.foldl_cons]
    exact ih (CW.addResponse cfg it.1 it.2 s).1 (addResponse_inv cfg it.1 it.2 s h)

/-- Retention sum over a cons cell. -/
theorem sumRetention_cons (e : CW.Entry) (es : List CW.Entry) :
    CW.sumRetention (e :: es) = e.retention + CW.sumRetention es := by
  simp [CW.sumRetention]

/-- Elements of the decay worker's output arise from an input entry by a
curve application and the minimum-retention floor. -/
theorem updateDecayGo_mem (dc : ℕ → ℚ) (minRet : ℚ) (n : ℕ) :
    ∀ (es : List CW.Entry) (j : ℕ) (x : CW.Entry),
      x ∈ CW.updateDecayGo dc minRet n j es →
      ∃ e ∈ es, ∃ a, x.retention = max (e.retention * dc a) minRet := by
  intro es
  induction es with
  | nil => intro j x h; simp [CW.updateDecayGo] at h
  | cons e es ih =>
    intro j x h
    rw [CW.updateDecayGo] at h
    rcases List.mem_cons.mp h with h1 | h1
    · exact ⟨e, List.mem_cons_self e es, n - j, by rw [h1]⟩
    · rcases ih (j + 1) x h1 with ⟨e0, he0, a, ha⟩
      exact ⟨e0, List.mem_cons_of_mem e he0, a, ha⟩

/-- The initial retention of a new entry lies in [0, 3/2] whenever the
configured bonus amount is nonnegative. -/
theorem initialRetention_bounds (cfg : CW.MemoryConfig) (text : Str)
    (hb : 0 ≤ cfg.bonusAmount) :
    0 ≤ CW.calculateInitialRetention cfg text ∧
      CW.calculateInitialRetention cfg text ≤ 3 / 2 := by
  unfold CW.calculateInitialRetention
  constructor
  · apply le_min
    · positivity
    · norm_num
  · calc
      min _ (1.5 : ℚ) ≤ (1.5 : ℚ) := min_le_right _ _
      _ = 3 / 2 := by norm_num

/-- On every reachable Context Memory state, every retained entry's
retention lies in [0, 3/2], given a nonnegative bonus amount and a
minimum retention inside [0, 3/2]. -/
theorem reach_retention_bounds (cfg : CW.MemoryConfig)
    (hb : 0 ≤ cfg.bonusAmount) (h0 : 0 ≤ cfg.minRetention)
    (h1 : cfg.minRetention ≤ 3 / 2) :
    ∀ s : CW.CWState, CW.Reach cfg s →
      ∀ e ∈ s.responses, 0 ≤ e.retention ∧ e.retention ≤ 3 / 2 := by
  intro s hs
  induction hs with
  | init => intro e he; simp [CW.cwInit] at he
  | add now text s0 _ ih =>
    intro e he
    simp only [CW.addResponse] at he
    have he' := enforce_mem cfg _ _ e he
    rcases List.mem_append.mp he' with h | h
    · exact ih e h
    · have he2 : e.retention = CW.calculateInitialRetention cfg text := by
        rw [List.mem_singleton] at h
        rw [h]
      rw [he2]
      exact initialRetention_bounds cfg text hb
  | decay dc s0 hdc _ ih =>
    intro e he
    simp only [CW.updateDecay] at he
    rcases updateDecayGo_mem dc cfg.minRetention _ _ _ e he with ⟨e0, he0, a, ha⟩
    have hb0 := ih e0 he0
    rw [ha]
    constructor
    · exact le_trans h0 (le_max_right _ _)
    · apply max_le _ h1
      calc
        e0.retention * dc a ≤ e0.retention * 1 :=
          mul_le_mul_of_nonneg_left (hdc a).2 hb0.1
        _ = e0.retention := mul_one _
        _ ≤ 3 / 2 := hb0.2

/-- The retention sum of a log whose entries all lie in [0, 3/2] lies
between 0 and 3/2 times the length. -/
theorem sumRetention_bounds :
    ∀ es : List CW.Entry, (∀ e ∈ es, 0 ≤ e.retention ∧ e.retention ≤ 3 / 2) →
      0 ≤ CW.sumRetention es ∧ CW.sumRetention es ≤ 3 / 2 * es.length := by
  intro es
  induction es with
  | nil => intro _; simp [CW.sumRetention]
  | cons e es ih =>
    intro h
    have he := h e (List.mem_cons_self e es)
    have hrest := ih fun x hx => h x (List.mem_cons_of_mem e hx)
    rw [sumRetention_cons]
    constructor
    · exact add_nonneg he.1 hrest.1
    · simp only [List.length_cons]
      push_cast
      nlinarith [he.2, hrest.2]

/-! Claim theorems. -/

/-- Claim C10: checkTerminalConditions writes at most the terminalState
field; the smoothed metrics, the alignment score, the hidden-state-access
accumulator and the history log are unchanged by the call. -/
theorem claim_C10_frame (s : AT.ATState) (rc sc : ℕ) :
    (AT.checkTerminalConditions s rc sc).1.metrics = s.metrics ∧
    (AT.checkTerminalConditions s rc sc).1.history = s.history ∧
    (AT.checkTerminalConditions s rc sc).1.alignmentScore = s.alignmentScore ∧
    (AT.checkTerminalConditions s rc sc).1.hiddenStateAccess = s.hiddenStateAccess :=
  ⟨rfl, rfl, rfl, rfl⟩

/-- Claim C9: checkResponse detects contradictions only against the
assertions stored before the call (its result is a function of the
pre-call assertion store), so the first call on a freshly constructed
tracker, whose store is empty, returns the empty contradiction list. -/
theorem claim_C9_no_self_contradiction (sensitivity : ℚ) (now rid : ℕ) (text : Str)
    (s : CT.CTState) :
    (CT.checkResponse sensitivity now rid text s).2 =
        CT.contradictionsFound sensitivity (lowerStr text) s.assertions ∧
      (s.assertions = [] → (CT.checkResponse sensitivity now rid text s).2 = []) := by
  refine ⟨checkResponse_snd sensitivity now rid text s, fun h => ?_⟩
  rw [checkResponse_snd sensitivity now rid text s, h]
  rfl

/-- Witness for C9: on the constructor state the first response yields
no contradiction. -/
theorem claim_C9_witness :
    (CT.checkResponse (1 / 2) 0 0 ("i love rivers".data) CT.ctInit).2 = [] :=
  (claim_C9_no_self_contradiction (1 / 2) 0 0 ("i love rivers".data) CT.ctInit).2 rfl

/-- Claim C5: checkResponse bumps the contradiction level by 0.2 per new
contradiction capped at 1 when the cycle found any, decays it by the
factor 0.95 otherwise, and therefore keeps it inside the unit interval. -/
theorem claim_C5_level (sensitivity : ℚ) (now rid : ℕ) (text : Str) (s : CT.CTState) :
    ((CT.checkResponse sensitivity now rid text s).1.contradictionLevel =
      if 0 < (CT.checkResponse sensitivity now rid text s).2.length then
        min (s.contradictionLevel +
          ((CT.checkResponse sensitivity now rid text s).2.length : ℚ) * (0.2 : ℚ)) 1
      else s.contradictionLevel * (0.95 : ℚ)) ∧
    (0 ≤ s.contradictionLevel → s.contradictionLevel ≤ 1 →
      0 ≤ (CT.checkResponse sensitivity now rid text s).1.contradictionLevel ∧
        (CT.checkResponse sensitivity now rid text s).1.contradictionLevel ≤ 1) := by
  rw [checkResponse_snd sensitivity now rid text s,
    checkResponse_level sensitivity now rid text s]
  refine ⟨rfl, fun h0 h1 => ?_⟩
  split_ifs with hc
  · refine ⟨le_min (add_nonneg h0 (by positivity)) zero_le_one, min_le_right _ _⟩
  · constructor
    · exact mul_nonneg h0 (by norm_num)
    · nlinarith
/-- Witness for C5: a concrete first call keeps the level inside the
unit interval. -/
theorem claim_C5_witness :
    0 ≤ (CT.checkResponse (1 / 2) 0 0 ("i love rivers".data) CT.ctInit).1.contradictionLevel ∧
      (CT.checkResponse (1 / 2) 0 0 ("i love rivers".data) CT.ctInit).1.contradictionLevel ≤ 1 :=
  (claim_C5_level (1 / 2) 0 0 ("i love rivers".data) CT.ctInit).2
    (by with_unfolding_all decide) (by with_unfolding_all decide)

/-- Counterexample for C4: with alignment_lock stored, a call on which
only the lowest-priority silence condition matches does not return the
stored alignment_lock — the matching condition overwrites it. -/
theorem claim_C4_counterexample :
    atLocked.terminalState = some AT.TerminalState.alignmentLock ∧
      ¬(atLocked.alignmentScore > 0.85 ∧ (12 : ℕ) > 10) ∧
      (AT.checkTerminalConditions atLocked 12 6).2 = some AT.TerminalState.silence ∧
      (AT.checkTerminalConditions atLocked 12 6).2 ≠ some AT.TerminalState.alignmentLock := by
  with_unfolding_all decide

/-- Claim C4 as amended: the three conditions are evaluated in the
documented priority order with the first match winning, and the stored
terminal state is returned unchanged exactly when no condition matches;
when any condition matches it overwrites the stored state, even a
lower-priority condition overwriting a higher-priority stored state. -/
theorem claim_C4_amended (s : AT.ATState) (rc sc : ℕ) :
    ((s.alignmentScore > 0.85 ∧ rc > 10) →
      (AT.checkTerminalConditions s rc sc).2 = some AT.TerminalState.alignmentLock) ∧
    (¬(s.alignmentScore > 0.85 ∧ rc > 10) → (s.alignmentScore < 0.2 ∧ rc > 8) →
      (AT.checkTerminalConditions s rc sc).2 = some AT.TerminalState.creativeDivergence) ∧
    (¬(s.alignmentScore > 0.85 ∧ rc > 10) → ¬(s.alignmentScore < 0.2 ∧ rc > 8) →
      sc > 5 → (AT.checkTerminalConditions s rc sc).2 = some AT.TerminalState.silence) ∧
    (¬(s.alignmentScore > 0.85 ∧ rc > 10) → ¬(s.alignmentScore < 0.2 ∧ rc > 8) →
      ¬(sc > 5) → (AT.checkTerminalConditions s rc sc).2 = s.terminalState) := by
  unfold AT.checkTerminalConditions
  refine ⟨fun hA => ?_, fun hA hB => ?_, fun hA hB hS => ?_, fun hA hB hS => ?_⟩
  · simp only [if_pos hA]
  · simp only [if_neg hA, if_pos hB]
  · simp only [if_neg hA, if_neg hB, if_pos hS]
  · simp only [if_neg hA, if_neg hB, if_neg hS]

/-- Witness for the amended C4: on the constructor state with no counts
the stored state (none) is returned unchanged. -/
theorem claim_C4_amended_witness :
    (AT.checkTerminalConditions AT.atInit 0 0).2 = AT.atInit.terminalState :=
  (claim_C4_amended AT.atInit 0 0).2.2.2
    (by with_unfolding_all decide)
    (by with_unfolding_all decide)
    (by decide)

/-- Claim C1 fails on the code: after twelve maximal-length responses the
position is inside the four-dimensional unit cube with presence exactly 1
and presence velocity above 0.2, and one recordSilence call — which
clamps the presence axis only from below — pushes the presence position
above 1. -/
theorem claim_C1_bug :
    (runZ 12).position =
        { compliance := 0, presence := 1, coherence := 0, authenticity := 0 } ∧
      (ST.recordSilence (runZ 12)).position.presence > 1 := by
  with_unfolding_all decide

/-- Claim C2 fails on the code: on a configuration whose only (hence
last) phase has every question already asked, getNextQuestion makes no
progress at any recursion depth — the fuel-indexed embedding returns
none for every fuel, so the unbounded source recursion never returns. -/
theorem claim_C2_nontermination (fuel : ℕ) (rs : ℕ → ℚ) (now : ℕ) :
    QE.getNextQuestionFuel cfgOnePhase envQuiet rs now fuel sExhausted = none := by
  induction fuel with
  | zero => rfl
  | succ n ih => rw [getNextQuestionFuel_exhausted_step rs now n]; exact ih

/-- Counterexample for C6: at half-life 1 the single (newest) entry has
no entries stored after it, so the claim's positional age is 0 and the
claimed decay factor is 1, yet the source halves its retention. -/
theorem claim_C6_counterexample :
    ((CW.updateDecay cfgPlain halfLifeOneCurve stOne).responses.map (·.retention)) =
        [1 / 2] ∧
      ((CW.updateDecayClaimed cfgPlain halfLifeOneCurve stOne).responses.map (·.retention)) =
        [1] ∧
      ((1 : ℚ) / 2) ≠ 1 := by
  with_unfolding_all decide

/-- Claim C6 as amended: updateDecay applies to the entry at index i the
decay curve evaluated at the count of entries stored after it plus one
(the source age is length minus index), and floors the result at the
configured minimum retention. -/
theorem claim_C6_amended (cfg : CW.MemoryConfig) (dc : ℕ → ℚ) (s : CW.CWState)
    (i : ℕ) (h : i < s.responses.length) :
    ((CW.updateDecay cfg dc s).responses.get? i).map (·.retention) =
      (s.responses.get? i).map fun e =>
        max (e.retention * dc (s.responses.length - 1 - i + 1)) cfg.minRetention := by
  have hage : s.responses.length - (0 + i) = s.responses.length - 1 - i + 1 := by omega
  rw [CW.updateDecay]
  rw [updateDecayGo_get? dc cfg.minRetention s.responses.length s.responses 0 i]
  rw [hage]
  cases s.responses.get? i <;> rfl

/-- Witness for the amended C6: the single entry of `stOne` is aged by
one, not zero. -/
theorem claim_C6_amended_witness :
    ((CW.updateDecay cfgPlain halfLifeOneCurve stOne).responses.get? 0).map (·.retention) =
      (stOne.responses.get? 0).map fun e =>
        max (e.retention * halfLifeOneCurve (stOne.responses.length - 1 - 0 + 1))
          cfgPlain.minRetention :=
  claim_C6_amended cfgPlain halfLifeOneCurve stOne 0 (by with_unfolding_all decide)

/-- Counterexample for C7: feature extraction on the empty string yields
complexity 1/40, not the claimed 0 (the JS split of the empty string
produces one empty word, giving average sentence length 1). -/
theorem claim_C7_counterexample :
    CW.calculateComplexity ("".data) = 1 / 40 ∧ ((1 : ℚ) / 40) ≠ 0 := by
  with_unfolding_all decide

/-- Claim C7 as amended: on empty or whitespace-only text, feature
extraction does not fail and returns certainty 0.5 and sentiment 0, but
complexity is a small positive constant — 1/40 on the empty text and
1/20 on whitespace-only text — rather than the claimed 0. -/
theorem claim_C7_amended (text : Str) (h : text.all isWS = true) :
    CW.estimateCertainty text = 1 / 2 ∧
      CW.analyzeSentiment text = 0 ∧
      CW.calculateComplexity text = if text = [] then 1 / 40 else 1 / 20 := by
  cases text with
  | nil =>
    refine ⟨by with_unfolding_all decide, by with_unfolding_all decide, ?_⟩
    rw [if_pos rfl]
    with_unfolding_all decide
  | cons c cs =>
    have hlow : splitRuns isWS (lowerStr (c :: cs)) = [[], []] := by
      have hl := lowerStr_allWS (c :: cs) h
      rw [lowerStr] at hl ⊢
      rw [List.map_cons] at hl ⊢
      exact splitRuns_allWS_cons _ _ hl
    have hraw : splitRuns isWS (c :: cs) = [[], []] := splitRuns_allWS_cons c cs h
    have hsent := sentences_allWS (c :: cs) h
    refine ⟨?_, ?_, ?_⟩
    · simp only [CW.estimateCertainty]
      rw [hlow]
      with_unfolding_all decide
    · simp only [CW.analyzeSentiment]
      rw [hlow]
      with_unfolding_all decide
    · rw [if_neg (by simp)]
      simp only [CW.calculateComplexity]
      rw [hraw, hsent]
      with_unfolding_all decide

/-- Witness for the amended C7: a one-space text gives certainty 0.5,
sentiment 0 and complexity 1/20. -/
theorem claim_C7_amended_witness :
    CW.estimateCertainty (" ".data) = 1 / 2 ∧
      CW.analyzeSentiment (" ".data) = 0 ∧
      CW.calculateComplexity (" ".data) = if (" ".data : Str) = [] then 1 / 40 else 1 / 20 :=
  claim_C7_amended (" ".data) (by decide)

/-- Claim C3: after every sequence of addResponse calls from the
constructor state, totalTokens equals exactly the token sum of the
retained entries, and budget enforcement never evicts the last remaining
entry, whatever the token counter. -/
theorem claim_C3_tokens (cfg : CW.MemoryConfig) (items : List (ℕ × Str)) :
    ((CW.addMany cfg items CW.cwInit).totalTokens =
        CW.sumTokens (CW.addMany cfg items CW.cwInit).responses) ∧
      ∀ (es : List CW.Entry) (tot : ℤ), es ≠ [] →
        (CW.enforceContextLimit cfg es tot).1 ≠ [] :=
  ⟨addMany_inv cfg items CW.cwInit rfl, fun es tot h => enforce_ne_nil cfg es tot h⟩

/-- Witness for C3: one concrete addition keeps the counter equal to the
retained token sum, and enforcement keeps a single entry even with its
counter far above the budget. -/
theorem claim_C3_witness :
    ((CW.addMany cfgPlain [(0, "hello there friend".data)] CW.cwInit).totalTokens =
        CW.sumTokens
          (CW.addMany cfgPlain [(0, "hello there friend".data)] CW.cwInit).responses) ∧
      (CW.enforceContextLimit cfgPlain [entryOne] 999999).1 ≠ [] :=
  ⟨(claim_C3_tokens cfgPlain [(0, "hello there friend".data)]).1,
    (claim_C3_tokens cfgPlain [(0, "hello there friend".data)]).2 [entryOne] 999999
      (by decide)⟩

/-- Counterexample for C8: under a configuration with a retention
keyword bonus — the bonuses the spec itself describes — a single stored
response reaches retention 1.5 and getGlobalDecay returns -1/2, outside
the claimed interval [0, 1]. -/
theorem claim_C8_counterexample :
    CW.Reach cfgBonus (CW.addResponse cfgBonus 1 ("i dream of rivers".data) CW.cwInit).1 ∧
      CW.getGlobalDecay
          (CW.addResponse cfgBonus 1 ("i dream of rivers".data) CW.cwInit).1 = -(1 / 2) ∧
      ¬(0 ≤ (-(1 / 2) : ℚ)) :=
  ⟨CW.Reach.add 1 ("i dream of rivers".data) CW.cwInit CW.Reach.init,
    by with_unfolding_all decide, by norm_num⟩

/-- Claim C8 as amended: getGlobalDecay returns 0 on the empty log and
one minus the mean retention otherwise, and on every reachable state
(for a configuration with nonnegative bonus amount and minimum retention
inside [0, 3/2]) the value lies in [-1/2, 1] — not [0, 1], since
retention bonuses push entry retention up to 3/2. -/
theorem claim_C8_globalDecay (cfg : CW.MemoryConfig) (s : CW.CWState)
    (hb : 0 ≤ cfg.bonusAmount) (h0 : 0 ≤ cfg.minRetention)
    (h1 : cfg.minRetention ≤ 3 / 2) (hr : CW.Reach cfg s) :
    (s.responses = [] → CW.getGlobalDecay s = 0) ∧
      (s.responses ≠ [] →
        CW.getGlobalDecay s = 1 - CW.sumRetention s.responses / (s.responses.length : ℚ)) ∧
      -(1 / 2) ≤ CW.getGlobalDecay s ∧ CW.getGlobalDecay s ≤ 1 := by
  have hempty : s.responses = [] → CW.getGlobalDecay s = 0 := by
    intro h
    simp [CW.getGlobalDecay, h]
  have hfull : s.responses ≠ [] →
      CW.getGlobalDecay s = 1 - CW.sumRetention s.responses / (s.responses.length : ℚ) := by
    intro h
    rw [CW.getGlobalDecay, if_neg (by simpa [List.length_eq_zero] using h)]
  refine ⟨hempty, hfull, ?_⟩
  by_cases h : s.responses = []
  · rw [hempty h]; norm_num
  · rw [hfull h]
    have hlen : 0 < (s.responses.length : ℚ) := by
      have : s.responses.length ≠ 0 := by simpa [List.length_eq_zero] using h
      exact_mod_cast Nat.pos_of_ne_zero this
    have hsum := sumRetention_bounds s.responses
      (reach_retention_bounds cfg hb h0 h1 s hr)
    have hdiv0 : 0 ≤ CW.sumRetention s.responses / (s.responses.length : ℚ) :=
      div_nonneg hsum.1 (le_of_lt hlen)
    have hdiv1 : CW.sumRetention s.responses / (s.responses.length : ℚ) ≤ 3 / 2 := by
      rw [div_le_iff₀ hlen]
      exact hsum.2
    constructor <;> linarith

/-- Witness for the amended C8: the bonus-configuration state that
realizes the lower endpoint stays inside [-1/2, 1]. -/
theorem claim_C8_globalDecay_witness :
    -(1 / 2) ≤ CW.getGlobalDecay
        (CW.addResponse cfgBonus 1 ("i dream of rivers".data) CW.cwInit).1 ∧
      CW.getGlobalDecay
          (CW.addResponse cfgBonus 1 ("i dream of rivers".data) CW.cwInit).1 ≤ 1 :=
  (claim_C8_globalDecay cfgBonus
      (CW.addResponse cfgBonus 1 ("i dream of rivers".data) CW.cwInit).1
      (by with_unfolding_all decide) (by with_unfolding_all decide)
      (by with_unfolding_all decide)
      (CW.Reach.add 1 ("i dream of rivers".data) CW.cwInit CW.Reach.init)).2.2

end Answerspace
